import Mathlib

/-
Verification of the directory scanner (src/__scan.py).

The program walks the current directory recursively; for each regular file
whose final suffix is not in a fixed skip-set of binary extensions it reads
the file as strict UTF-8 text and prints the path when the decoded text
contains the Unicode replacement character U+FFFD.  Any exception while
reading or decoding silently skips the file.

The embedding below models a traversal as a list of filesystem entries in
enumeration order.  Each entry carries its path string, whether it is a
regular file, and the result of attempting to read its byte content
(`none` models an OS-level read error such as permission denied).  Bytes
and code points are natural numbers.
-/

/-- One filesystem entry as seen by the traversal:
its path, whether `is_file()` holds, and the outcome of reading its bytes
(`none` = the read itself raises, e.g. permission denied or a race). -/
structure Entry where
  path : String
  isFile : Bool
  readBytes : Option (List Nat)
deriving DecidableEq, Repr

/-- Index of the last occurrence of a character in a character list
(`str.rfind` in Python). -/
def rfindChar (target : Char) : List Char → Option Nat
  | [] => none
  | c :: rest =>
    match rfindChar target rest with
    | some i => some (i + 1)
    | none => if c = target then some 0 else none

/-- The path separator character. -/
def sepChar : Char := '/'

/-- The dot character that introduces an extension. -/
def dotChar : Char := '.'

/-- The final component of a path, as `pathlib.PurePath.name`:
everything after the last separator. -/
def pathName (p : String) : String :=
  let cs := p.toList
  match rfindChar sepChar cs with
  | some i => String.mk (cs.drop (i + 1))
  | none => p

/-- `pathlib.PurePath.suffix` applied to a file name: the substring from the
last dot on, but only when that dot is neither the first nor the last
character of the name; otherwise the empty string. -/
def pySuffix (name : String) : String :=
  let cs := name.toList
  match rfindChar dotChar cs with
  | some i => if 0 < i ∧ i < cs.length - 1 then String.mk (cs.drop i) else ""
  | none => ""

/-- The fixed skip-set of extensions from line 4 of the script. -/
def SKIP_SUFFIXES : List String :=
  [".png", ".jpg", ".jpeg", ".gif", ".pdf", ".zip", ".ico", ".woff", ".woff2", ".ttf"]

/-- Whether a byte is a UTF-8 continuation byte (10xxxxxx). -/
def contByte (b : Nat) : Bool :=
  0x80 ≤ b && b ≤ 0xBF

/-- Strict UTF-8 decoding of a byte list into a list of code points,
as Python's `bytes.decode("utf-8")` (the default, error-raising mode used
by `Path.read_text(encoding="utf-8")`): `none` models `UnicodeDecodeError`.
Rejects stray continuation bytes, truncated sequences, overlong encodings
(lead bytes 0xC0/0xC1, and under-range 3- and 4-byte forms), surrogate
code points U+D800..U+DFFF, and code points above U+10FFFF. -/
def utf8Decode : List Nat → Option (List Nat)
  | [] => some []
  | b :: rest =>
    if b ≤ 0x7F then
      (utf8Decode rest).map (fun cps => b :: cps)
    else if 0xC2 ≤ b ∧ b ≤ 0xDF then
      match rest with
      | c1 :: rest2 =>
        if contByte c1 then
          (utf8Decode rest2).map (fun cps =>
            ((b - 0xC0) * 0x40 + (c1 - 0x80)) :: cps)
        else none
      | [] => none
    else if 0xE0 ≤ b ∧ b ≤ 0xEF then
      match rest with
      | c1 :: c2 :: rest2 =>
        if contByte c1 ∧ contByte c2 ∧ (b = 0xE0 → 0xA0 ≤ c1) ∧ (b = 0xED → c1 ≤ 0x9F) then
          (utf8Decode rest2).map (fun cps =>
            ((b - 0xE0) * 0x1000 + (c1 - 0x80) * 0x40 + (c2 - 0x80)) :: cps)
        else none
      | _ => none
    else if 0xF0 ≤ b ∧ b ≤ 0xF4 then
      match rest with
      | c1 :: c2 :: c3 :: rest2 =>
        if contByte c1 ∧ contByte c2 ∧ contByte c3 ∧ (b = 0xF0 → 0x90 ≤ c1) ∧ (b = 0xF4 → c1 ≤ 0x8F) then
          (utf8Decode rest2).map (fun cps =>
            ((b - 0xF0) * 0x40000 + (c1 - 0x80) * 0x1000 + (c2 - 0x80) * 0x40 + (c3 - 0x80)) :: cps)
        else none
      | _ => none
    else none

/-- The guard on line 4 of the script:
`path.is_file() and path.suffix not in SKIP_SUFFIXES`.
Only entries passing this guard have their content read. -/
def passesGuards (e : Entry) : Bool :=
  e.isFile && !(SKIP_SUFFIXES.contains (pySuffix (pathName e.path)))

/-- The outcome of `path.read_text(encoding="utf-8")` for an entry:
`none` when either the OS read or the strict UTF-8 decode raises
(both are swallowed by the same `except Exception: continue`). -/
def decodedText (e : Entry) : Option (List Nat) :=
  match e.readBytes with
  | none => none
  | some bs => utf8Decode bs

/-- Whether the script prints this entry's path: the guard passes, reading
and decoding succeed, and the decoded text contains U+FFFD. -/
def reportsEntry (e : Entry) : Bool :=
  passesGuards e &&
    (match decodedText e with
     | none => false
     | some cps => cps.contains 0xFFFD)

/-- The scan over a traversal: the paths printed to standard output,
in traversal order. -/
def scan (tree : List Entry) : List String :=
  (tree.filter reportsEntry).map Entry.path

/-- The paths whose content the script attempts to read: exactly the
entries passing the line-4 guard reach `read_text` on line 6. -/
def readAttempts (tree : List Entry) : List String :=
  (tree.filter passesGuards).map Entry.path

-- Shared unfolding lemmas.

theorem scan_cons (e : Entry) (t : List Entry) :
    scan (e :: t) = if reportsEntry e then e.path :: scan t else scan t := by
  by_cases h : reportsEntry e <;> simp [scan, List.filter, h]

theorem readAttempts_cons (e : Entry) (t : List Entry) :
    readAttempts (e :: t) =
      if passesGuards e then e.path :: readAttempts t else readAttempts t := by
  by_cases h : passesGuards e <;> simp [readAttempts, List.filter, h]

theorem mem_scan (t : List Entry) (p : String) :
    p ∈ scan t ↔ ∃ e, e ∈ t ∧ reportsEntry e = true ∧ e.path = p := by
  simp [scan, List.mem_map, List.mem_filter]
  constructor
  · rintro ⟨e, ⟨he, hr⟩, hp⟩
    exact ⟨e, he, hr, hp⟩
  · rintro ⟨e, he, hr, hp⟩
    exact ⟨e, ⟨he, hr⟩, hp⟩

-- Concrete entries used as witnesses and counterexamples.

/-- The UTF-8 encoding of U+FFFD itself (a literal replacement character
appearing as valid text). -/
def fffdBytes : List Nat := [0xEF, 0xBF, 0xBD]

/-- A text file whose bytes are the invalid UTF-8 sequence 0xFF 0xFE. -/
def badTxtEntry : Entry := ⟨"bad.txt", true, some [0xFF, 0xFE]⟩

/-- A text file whose valid UTF-8 content is one literal U+FFFD. -/
def weirdTxtEntry : Entry := ⟨"weird.txt", true, some fffdBytes⟩

/-- A well-formed ASCII text file containing the text hello world. -/
def goodTxtEntry : Entry :=
  ⟨"good.txt", true, some [104, 101, 108, 108, 111, 32, 119, 111, 114, 108, 100]⟩

/-- A text file whose read itself fails (e.g. permission denied). -/
def lockedTxtEntry : Entry := ⟨"locked.txt", true, none⟩

/-- A skip-set file whose bytes are invalid UTF-8. -/
def badPngEntry : Entry := ⟨"img.png", true, some [0xFF, 0xFE]⟩

/-- A skip-set file whose bytes are a literal encoded U+FFFD. -/
def litPngEntry : Entry := ⟨"lit.png", true, some fffdBytes⟩

/-- A non-regular-file entry (e.g. a directory) under the root. -/
def dirEntry : Entry := ⟨"subdir", false, some fffdBytes⟩

/-- A file name with a skip extension in the middle but a text suffix. -/
def nameMultiTxt : String := "a.png.txt"

/-- A file name whose final suffix is a skip extension. -/
def nameMultiPng : String := "a.txt.png"

/-- A leading-dot file name whose whole name equals a skip extension. -/
def nameDotPng : String := ".png"

/-- Entry named a.png.txt containing a literal U+FFFD. -/
def multiTxtEntry : Entry := ⟨nameMultiTxt, true, some fffdBytes⟩

/-- Entry named a.txt.png containing a literal U+FFFD. -/
def multiPngEntry : Entry := ⟨nameMultiPng, true, some fffdBytes⟩

/-- Entry whose whole name is .png, containing a literal U+FFFD. -/
def dotPngEntry : Entry := ⟨nameDotPng, true, some fffdBytes⟩

-- Claim theorems.

/-- C1 counterexample: the claim that a regular non-skipped file bad.txt
whose bytes are 0xFF 0xFE appears in the output is false of the code:
`read_text` decodes strictly, the invalid bytes raise rather than being
substituted with U+FFFD, and the file is silently skipped, so a scan of a
tree holding exactly that file prints nothing. -/
theorem C1_counterexample :
    badTxtEntry.isFile = true ∧
    SKIP_SUFFIXES.contains (pySuffix (pathName badTxtEntry.path)) = false ∧
    badTxtEntry.readBytes = some [0xFF, 0xFE] ∧
    scan [badTxtEntry] = [] := by
  refine ⟨rfl, by decide, rfl, by decide⟩

/-- C1 (amended): a file whose byte content is the invalid-UTF-8 sequence
0xFF 0xFE is never reported: the strict UTF-8 decode fails, the exception
is swallowed, and the traversal continues with the remaining entries
unchanged. -/
theorem C1_invalid_bytes_skipped (e : Entry) (t : List Entry)
    (h : e.readBytes = some [0xFF, 0xFE]) :
    reportsEntry e = false ∧ scan (e :: t) = scan t := by
  have hd : decodedText e = none := by
    unfold decodedText
    rw [h]
    decide
  have hr : reportsEntry e = false := by
    unfold reportsEntry
    rw [hd]
    simp
  refine ⟨hr, ?_⟩
  rw [scan_cons, hr]
  simp

/-- C1 (amended) witness at the concrete bad.txt entry. -/
theorem C1_invalid_bytes_skipped_witness :
    reportsEntry badTxtEntry = false ∧ scan (badTxtEntry :: []) = scan [] :=
  C1_invalid_bytes_skipped badTxtEntry [] rfl

/-- C2: for a regular file outside the skip-set whose read succeeds, if the
strict UTF-8 decode succeeds the path is printed iff the decoded text
contains U+FFFD, and if the decode fails outright the file is silently
skipped. -/
theorem C2_report_iff_fffd (e : Entry) (bs : List Nat)
    (hf : e.isFile = true)
    (hs : SKIP_SUFFIXES.contains (pySuffix (pathName e.path)) = false)
    (hr : e.readBytes = some bs) :
    (∀ cps, utf8Decode bs = some cps →
        (scan [e] = [e.path] ↔ cps.contains 0xFFFD = true)) ∧
    (utf8Decode bs = none → scan [e] = []) := by
  have hg : passesGuards e = true := by
    unfold passesGuards
    rw [hf, hs]
    rfl
  have hd : decodedText e = utf8Decode bs := by
    unfold decodedText
    rw [hr]
  constructor
  · intro cps hcps
    have hre : reportsEntry e = cps.contains 0xFFFD := by
      unfold reportsEntry
      rw [hg, hd, hcps]
      simp
    rw [scan_cons, hre]
    cases hc : cps.contains 0xFFFD <;> simp [scan]
  · intro hnone
    have hre : reportsEntry e = false := by
      unfold reportsEntry
      rw [hd, hnone]
      simp
    rw [scan_cons, hre]
    simp [scan]

/-- C2 witness at the concrete weird.txt entry, whose content is a literal
encoded U+FFFD. -/
theorem C2_report_iff_fffd_witness :
    (scan [weirdTxtEntry] = [weirdTxtEntry.path] ↔
        ([0xFFFD] : List Nat).contains 0xFFFD = true) ∧
    (utf8Decode fffdBytes = none → scan [weirdTxtEntry] = []) := by
  have h := C2_report_iff_fffd weirdTxtEntry fffdBytes rfl (by decide) rfl
  exact ⟨h.1 [0xFFFD] (by decide), h.2⟩

/-- C3: any per-file error (OS read failure or strict decode failure, both
modelled as a missing decoded text) causes that file to be silently
excluded and the traversal to continue with the remaining entries. -/
theorem C3_errors_silently_skipped (e : Entry) (t : List Entry)
    (h : decodedText e = none) :
    reportsEntry e = false ∧ scan (e :: t) = scan t := by
  have hr : reportsEntry e = false := by
    unfold reportsEntry
    rw [h]
    simp
  refine ⟨hr, ?_⟩
  rw [scan_cons, hr]
  simp

/-- C3 witness at the concrete locked.txt entry whose read fails. -/
theorem C3_errors_silently_skipped_witness :
    reportsEntry lockedTxtEntry = false ∧
    scan (lockedTxtEntry :: [goodTxtEntry]) = scan [goodTxtEntry] :=
  C3_errors_silently_skipped lockedTxtEntry [goodTxtEntry] rfl

/-- C4: a file whose final suffix is in the skip-set is never reported,
whatever its byte content, and the traversal continues unchanged. -/
theorem C4_skip_set_excluded (e : Entry) (t : List Entry)
    (h : SKIP_SUFFIXES.contains (pySuffix (pathName e.path)) = true) :
    reportsEntry e = false ∧ scan (e :: t) = scan t := by
  have hg : passesGuards e = false := by
    unfold passesGuards
    rw [h]
    simp
  have hr : reportsEntry e = false := by
    unfold reportsEntry
    rw [hg]
    simp
  refine ⟨hr, ?_⟩
  rw [scan_cons, hr]
  simp

/-- C4 witness at the concrete lit.png entry whose content is a literal
encoded U+FFFD. -/
theorem C4_skip_set_excluded_witness :
    reportsEntry litPngEntry = false ∧
    scan (litPngEntry :: [badPngEntry]) = scan [badPngEntry] :=
  C4_skip_set_excluded litPngEntry [badPngEntry] (by decide)

/-- C5: a file whose bytes decode successfully to text containing no U+FFFD
is never reported, and the traversal continues unchanged. -/
theorem C5_clean_text_not_reported (e : Entry) (bs cps : List Nat) (t : List Entry)
    (hr : e.readBytes = some bs)
    (hd : utf8Decode bs = some cps)
    (hc : cps.contains 0xFFFD = false) :
    reportsEntry e = false ∧ scan (e :: t) = scan t := by
  have hdt : decodedText e = some cps := by
    unfold decodedText
    rw [hr]
    exact hd
  have hre : reportsEntry e = false := by
    unfold reportsEntry
    rw [hdt]
    show (passesGuards e && cps.contains 0xFFFD) = false
    rw [hc]
    simp
  refine ⟨hre, ?_⟩
  rw [scan_cons, hre]
  simp

/-- C5 witness at the concrete good.txt entry containing hello world. -/
theorem C5_clean_text_not_reported_witness :
    reportsEntry goodTxtEntry = false ∧
    scan (goodTxtEntry :: []) = scan [] :=
  C5_clean_text_not_reported goodTxtEntry
    [104, 101, 108, 108, 111, 32, 119, 111, 114, 108, 100]
    [104, 101, 108, 108, 111, 32, 119, 111, 114, 108, 100]
    [] rfl (by decide) (by decide)

/-- C6: only regular files are ever reported: every path in the output
comes from an entry of the traversal for which `is_file()` held. -/
theorem C6_only_regular_files (t : List Entry) (p : String)
    (h : p ∈ scan t) :
    ∃ e, e ∈ t ∧ e.isFile = true ∧ e.path = p := by
  rcases (mem_scan t p).1 h with ⟨e, het, hre, hp⟩
  have hg : passesGuards e = true := by
    unfold reportsEntry at hre
    rw [Bool.and_eq_true] at hre
    exact hre.1
  have hf : e.isFile = true := by
    unfold passesGuards at hg
    rw [Bool.and_eq_true] at hg
    exact hg.1
  exact ⟨e, het, hf, hp⟩

/-- C6 witness: applying the theorem to a one-entry tree whose reported
path is the weird.txt entry. -/
theorem C6_only_regular_files_witness :
    ∃ e, e ∈ [weirdTxtEntry] ∧ e.isFile = true ∧ e.path = weirdTxtEntry.path :=
  C6_only_regular_files [weirdTxtEntry] weirdTxtEntry.path (by decide)

/-- C7: when no entry of the traversal satisfies the report condition
(in particular for an empty tree) the scan prints nothing. -/
theorem C7_no_match_no_output (t : List Entry)
    (h : ∀ e, e ∈ t → reportsEntry e = false) :
    scan t = [] := by
  induction t with
  | nil => rfl
  | cons e t ih =>
    rw [scan_cons, h e (List.mem_cons_self e t)]
    simp only [Bool.false_eq_true, if_false]
    exact ih (fun x hx => h x (List.mem_cons_of_mem e hx))

/-- C7 witness: the empty tree produces no output. -/
theorem C7_no_match_no_output_witness :
    scan ([] : List Entry) = [] :=
  C7_no_match_no_output [] (fun e he => absurd he (List.not_mem_nil e))

/-- C8: the scan is a pure function of the traversed tree: two runs that
enumerate the same entries (same paths, kinds and byte contents), possibly
in different orders, report the same multiset of paths. -/
theorem C8_deterministic_up_to_order (t1 t2 : List Entry)
    (h : List.Perm t1 t2) :
    List.Perm (scan t1) (scan t2) := by
  unfold scan
  exact (h.filter reportsEntry).map Entry.path

/-- C8 witness: two enumeration orders of the same two files report the
same paths up to order. -/
theorem C8_deterministic_up_to_order_witness :
    List.Perm (scan [weirdTxtEntry, goodTxtEntry]) (scan [goodTxtEntry, weirdTxtEntry]) :=
  C8_deterministic_up_to_order [weirdTxtEntry, goodTxtEntry]
    [goodTxtEntry, weirdTxtEntry] (by decide)

/-- C9: the skip decision looks only at the final dot-separated suffix of
the file name: a.png.txt has suffix .txt and is decoded and reported when
its text contains U+FFFD, a.txt.png has suffix .png and is skipped, and the
leading-dot name .png has an empty suffix, so it is decoded and reported
despite .png being in the skip-set. -/
theorem C9_suffix_semantics :
    SKIP_SUFFIXES.contains (pySuffix (pathName nameMultiTxt)) = false ∧
    scan [multiTxtEntry] = [nameMultiTxt] ∧
    SKIP_SUFFIXES.contains (pySuffix (pathName nameMultiPng)) = true ∧
    scan [multiPngEntry] = [] ∧
    pySuffix (pathName nameDotPng) = "" ∧
    scan [dotPngEntry] = [nameDotPng] := by
  decide

/-- C10: an entry that is not a regular file or whose final suffix is in
the skip-set never has its content read: it never reaches `read_text` and
is never reported. -/
theorem C10_no_read_when_guarded (e : Entry) (t : List Entry)
    (h : e.isFile = false ∨ SKIP_SUFFIXES.contains (pySuffix (pathName e.path)) = true) :
    readAttempts (e :: t) = readAttempts t ∧ reportsEntry e = false := by
  have hg : passesGuards e = false := by
    unfold passesGuards
    rcases h with h | h <;> rw [h] <;> simp
  constructor
  · rw [readAttempts_cons, hg]
    simp
  · unfold reportsEntry
    rw [hg]
    simp

/-- C10 witness at the concrete directory entry. -/
theorem C10_no_read_when_guarded_witness :
    readAttempts (dirEntry :: []) = readAttempts [] ∧ reportsEntry dirEntry = false :=
  C10_no_read_when_guarded dirEntry [] (Or.inl rfl)
